import Mathlib

set_option linter.unusedVariables false

/-!
Shallow embedding of the firewall reconciliation engine
(`src/ironic_inspector/firewall.py`) and of the node-processing session
contract exercised by `src/ironic_discoverd/test/test_process.py`.

Strings are modelled as lists of characters (`Str`).  External iptables
invocations are modelled as structured commands recorded in a trace; an
oracle decides, per invocation index, whether the external command
succeeds.  A failing invocation whose `ignore` flag is set is logged and
skipped (as in `_iptables`); a failing invocation without `ignore`
aborts the run (the Python `CalledProcessError` propagating).
-/

abbrev Str := List Char

def str (s : String) : Str := s.data

/-- An ironic port as consumed by `update_filters`: its MAC `address` and
the optional `extra['client-id']` value. -/
structure Port where
  address : Str
  clientId : Option Str
deriving DecidableEq, Repr

/-- The configuration surface read by `firewall.py` (`CONF.firewall.*` and
`CONF.processing.node_not_found_hook`). -/
structure Config where
  manage_firewall : Bool
  dnsmasq_interface : Str
  firewall_chain : Str
  ethoib_interfaces : List Str
  node_not_found_hook : Bool

/-- The external world read during one reconciliation call:
`node_cache.introspection_active()`, `node_cache.active_macs()`, the
ironic port listing, and the per-interface neighbour files
(`/sys/class/net/<i>/eth/neighs`; `none` models an `IOError`). -/
structure Env where
  introspection_active : Bool
  active_macs : List Str
  ports : List Port
  neighsFile : Str → Option Str

/-- The module-level globals of `firewall.py`: `INTERFACE`, `CHAIN`,
`NEW_CHAIN`, `BLACKLIST_CACHE` and `ENABLED`.  The three names are all
`None` before `init()` and are assigned together by it, so they are
modelled as jointly present or jointly absent. -/
structure FwState where
  interface_ : Option Str
  chain : Option Str
  newChain : Option Str
  blacklistCache : Option (Finset Str)
  enabled : Bool
deriving DecidableEq

/-- The initial state of the module globals (lines 30-36 of firewall.py):
everything unset, `ENABLED = True`. -/
def FwState.initial : FwState :=
  { interface_ := none, chain := none, newChain := none,
    blacklistCache := none, enabled := true }

/-- One iptables invocation, as issued by `_iptables` (the fixed
`BASE_COMMAND` prefix is omitted: only the mutation arguments vary). -/
inductive Cmd where
  | newChain (c : Str)
  | flush (c : Str)
  | delChain (c : Str)
  | insertInput (iface c : Str)
  | deleteInput (iface c : Str)
  | rename (old new : Str)
  | appendDrop (c mac : Str)
  | appendAccept (c : Str)
  | appendReject (c : Str)
deriving DecidableEq, Repr

/-- Execution record: the commands issued so far and the index of the
next invocation (consulted by the success oracle). -/
structure ExecSt where
  trace : List Cmd
  idx : Nat
deriving DecidableEq, Repr

def ExecSt.empty : ExecSt := ⟨[], 0⟩

/-- Run a list of iptables invocations (`Cmd` paired with its `ignore`
flag) against the success oracle.  Every invocation is recorded in the
trace.  A failing invocation with `ignore` set continues (the Python
code logs and swallows the `CalledProcessError`); a failing invocation
without `ignore` stops the run and reports failure (the exception
propagates, skipping the rest of the `with` block). -/
def runCmds (oracle : Nat → Bool) : List (Cmd × Bool) → ExecSt → ExecSt × Bool
  | [], es => (es, true)
  | (c, ign) :: rest, es =>
    let ok := oracle es.idx
    let es' : ExecSt := ⟨es.trace ++ [c], es.idx + 1⟩
    if ok || ign then runCmds oracle rest es' else (es', false)

/-- `_clean_up(chain)`: three best-effort invocations (all `ignore=True`):
delete the INPUT hook to `chain`, flush `chain`, delete `chain`. -/
def _clean_up (iface chain : Str) : List (Cmd × Bool) :=
  [(.deleteInput iface chain, true), (.flush chain, true), (.delChain chain, true)]

/-- The swap epilogue of the `_temporary_chain` context manager: insert
the INPUT hook to the temporary chain, remove the hook to the main
chain (best effort), flush and delete the main chain (best effort),
rename the temporary chain to the main name. -/
def swapCmds (iface chain mainChain : Str) : List (Cmd × Bool) :=
  [(.insertInput iface chain, false), (.deleteInput iface mainChain, true),
   (.flush mainChain, true), (.delChain mainChain, true),
   (.rename chain mainChain, false)]

/-- `_temporary_chain(chain, main_chain)` wrapped around a body: clean up
the temporary chain, create it, run the body, then swap.  If the body
(or any non-ignored command) fails, `runCmds` stops there, matching the
exception propagating out of the `with` block. -/
def _temporary_chain (iface chain mainChain : Str) (body : List (Cmd × Bool)) :
    List (Cmd × Bool) :=
  _clean_up iface chain ++ [(.newChain chain, false)] ++ body
    ++ swapCmds iface chain mainChain

/-- `[0-9a-f]`: one lowercase hexadecimal digit, as in `EMAC_REGEX`. -/
def isHexLower (c : Char) : Bool :=
  (decide ('0' ≤ c) && decide (c ≤ '9')) || (decide ('a' ≤ c) && decide (c ≤ 'f'))

/-- `(:[0-9a-f]{2}){n}`: `n` repetitions of a colon and a hex pair. -/
def macGroups : Nat → Str → Bool
  | 0, [] => true
  | n + 1, ':' :: a :: b :: rest => isHexLower a && isHexLower b && macGroups n rest
  | _, _ => false

/-- `[0-9a-f]{2}(:[0-9a-f]{2}){5}`: the capture group of `EMAC_REGEX`. -/
def isMacChars : Str → Bool
  | a :: b :: rest => isHexLower a && isHexLower b && macGroups 5 rest
  | _ => false

/-- The `.*` part of `EMAC_REGEX` followed by the literal GUID: some
(possibly empty) run of non-newline characters after which `guid` occurs
literally. -/
def dotStarThen (guid : Str) : Str → Bool
  | [] => decide (guid = [])
  | c :: rest =>
    decide (guid <+: (c :: rest)) || (decide (c ≠ '\n') && dotStarThen guid rest)

/-- Match the pattern `EMAC_REGEX + guid`, i.e.
`EMAC=([0-9a-f]{2}(:[0-9a-f]{2}){5}) IMAC=.*<guid>`, anchored at the
start of `cs`; return the captured Ethernet MAC on success. -/
def emacMatchAt (guid : Str) (cs : Str) : Option Str :=
  if str "EMAC=" <+: cs then
    let rest := cs.drop 5
    let mac := rest.take 17
    if isMacChars mac && decide (str " IMAC=" <+: rest.drop 17)
        && dotStarThen guid (rest.drop 23)
    then some mac else none
  else none

/-- `re.search` of `EMAC_REGEX + guid` over the neighbour-file text:
the leftmost position where the pattern matches wins. -/
def emacSearch (guid : Str) : Str → Option Str
  | [] => emacMatchAt guid []
  | c :: rest =>
    match emacMatchAt guid (c :: rest) with
    | some m => some m
    | none => emacSearch guid rest

/-- Assoc-list lookup: the first binding for the key wins. -/
def alookup : List (Str × Str) → Str → Option Str
  | [], _ => none
  | (k, v) :: rest, a => if k = a then some v else alookup rest a

/-- The inner loop of `_ib_mac_to_rmac_mapping` for one readable
neighbour file: for every active port whose address is blacklisted and
whose `client-id` is present (and non-empty, Python truthiness), take
the last 23 characters as the InfiniBand GUID and search the file text;
on a match record `address -> EMAC`.  New entries are prepended, so the
first `alookup` hit is the most recent write, matching Python dict
assignment overriding earlier entries. -/
def ibMapStep (blacklist : List Str) (data : Str) :
    List Port → List (Str × Str) → List (Str × Str)
  | [], acc => acc
  | p :: rest, acc =>
    let acc' :=
      if p.address ∈ blacklist then
        match p.clientId with
        | some cid =>
          if cid = [] then acc
          else
            let guid := cid.drop (cid.length - 23)
            match emacSearch guid data with
            | some emac => (p.address, emac) :: acc
            | none => acc
        | none => acc
      else acc
    ibMapStep blacklist data rest acc'

/-- The outer loop of `_ib_mac_to_rmac_mapping`: for each configured
EoIB interface, read its neighbour file; an unreadable file (`IOError`)
logs and skips the interface. -/
def ibMapInterfaces (env : Env) (blacklist : List Str) (ports : List Port)
    (acc : List (Str × Str)) : List Str → List (Str × Str)
  | [] => acc
  | i :: rest =>
    match env.neighsFile i with
    | none => ibMapInterfaces env blacklist ports acc rest
    | some data => ibMapInterfaces env blacklist ports (ibMapStep blacklist data ports acc) rest

/-- `_ib_mac_to_rmac_mapping(blacklist_macs, ports_active)`. -/
def _ib_mac_to_rmac_mapping (env : Env) (cfg : Config) (blacklist : List Str)
    (ports : List Port) : List (Str × Str) :=
  ibMapInterfaces env blacklist ports [] cfg.ethoib_interfaces

/-- `macs_active = set(p.address for p in ports_active)`, determinised
as the deduplicated list of addresses in listing order. -/
def macsActive (env : Env) : List Str := (env.ports.map (·.address)).dedup

/-- `to_blacklist = macs_active - node_cache.active_macs()`. -/
def toBlacklist (env : Env) : List Str :=
  (macsActive env).filter (fun m => decide (m ∉ env.active_macs))

/-- The skip test of `update_filters` (lines 193-197): cache present,
blacklist equal to it as a set, and an empty (falsy) remap mapping. -/
def cacheHit (cache : Option (Finset Str)) (bl : List Str)
    (mapping : List (Str × Str)) : Bool :=
  match cache with
  | none => false
  | some c => decide (bl.toFinset = c) && mapping.isEmpty

/-- `ib_mac_mapping.get(mac) or mac`. -/
def remapMac (mapping : List (Str × Str)) (m : Str) : Str :=
  (alookup mapping m).getD m

/-- `_should_enable_dhcp()`. -/
def _should_enable_dhcp (cfg : Config) (env : Env) : Bool :=
  env.introspection_active || cfg.node_not_found_hook

/-- How one call to `update_filters` (or `init`) terminates: normally,
with a propagating iptables failure, or with the `assert INTERFACE is
not None` assertion failing. -/
inductive Outcome where
  | ok
  | iptablesError
  | assertionError
deriving DecidableEq, Repr

/-- Result of one firewall entry point: final globals, execution record,
and how the call terminated. -/
structure UFRes where
  st : FwState
  es : ExecSt
  outcome : Outcome

/-- `_disable_dhcp()`: no-op when already disabled; otherwise clear the
cache, install a single blanket REJECT chain through `_temporary_chain`,
and mark DHCP disabled on success.  The cache reset happens before the
iptables calls, so a failure still leaves it cleared. -/
def _disable_dhcp (oracle : Nat → Bool) (iface chain newChain : Str)
    (st : FwState) (es : ExecSt) : UFRes :=
  if !st.enabled then ⟨st, es, .ok⟩
  else
    let st1 := { st with blacklistCache := none }
    let r := runCmds oracle
      (_temporary_chain iface newChain chain [(.appendReject newChain, false)]) es
    if r.2 then ⟨{ st1 with enabled := false }, r.1, .ok⟩
    else ⟨st1, r.1, .iptablesError⟩

/-- `update_filters(ironic)` (lines 157-214 of firewall.py): no-op when
firewall management is disabled; assert that `init()` ran; disable DHCP
when nothing is on introspection and no not-found hook is set; otherwise
compute the blacklist and the EoIB remap, skip when nothing changed,
else clear the cache, rewrite the rules through `_temporary_chain`
(one DROP per remapped blacklisted MAC, then ACCEPT), and on success
mark DHCP enabled and cache the raw blacklist. -/
def update_filters (cfg : Config) (env : Env) (oracle : Nat → Bool)
    (st : FwState) (es : ExecSt) : UFRes :=
  if !cfg.manage_firewall then ⟨st, es, .ok⟩
  else
    match st.interface_, st.chain, st.newChain with
    | some iface, some chain, some newChain =>
      if !_should_enable_dhcp cfg env then
        _disable_dhcp oracle iface chain newChain st es
      else
        let bl := toBlacklist env
        let mapping := _ib_mac_to_rmac_mapping env cfg bl env.ports
        if cacheHit st.blacklistCache bl mapping then ⟨st, es, .ok⟩
        else
          let st1 := { st with blacklistCache := none }
          let body := bl.map (fun m => (Cmd.appendDrop newChain (remapMac mapping m), false))
            ++ [(Cmd.appendAccept newChain, false)]
          let r := runCmds oracle (_temporary_chain iface newChain chain body) es
          if r.2 then
            ⟨{ st1 with enabled := true, blacklistCache := some bl.toFinset }, r.1, .ok⟩
          else ⟨st1, r.1, .iptablesError⟩
    | _, _, _ => ⟨st, es, .assertionError⟩

/-- `init()` (lines 59-89): no-op when management is disabled; otherwise
reset the cache, set `INTERFACE`, `CHAIN`, `NEW_CHAIN = CHAIN + '_temp'`
(and `BASE_COMMAND`, not modelled: the `-w` probe only toggles a flag of
the fixed command prefix and issues no chain mutation), then run
`_clean_up(CHAIN)` and a non-ignored `-N CHAIN`.  The globals are
assigned before the iptables invocations. -/
def init (cfg : Config) (oracle : Nat → Bool) (st : FwState) (es : ExecSt) : UFRes :=
  if !cfg.manage_firewall then ⟨st, es, .ok⟩
  else
    let iface := cfg.dnsmasq_interface
    let chain := cfg.firewall_chain
    let st1 : FwState :=
      { interface_ := some iface, chain := some chain,
        newChain := some (chain ++ str "_temp"),
        blacklistCache := none, enabled := st.enabled }
    let r := runCmds oracle (_clean_up iface chain ++ [(.newChain chain, false)]) es
    ⟨st1, r.1, if r.2 then .ok else .iptablesError⟩

/-! ### Observable packet-filter state

An interpreter for `Cmd` over an abstract netfilter state, used to state
the atomic-swap invariant: the chains that exist (with their rule
lists) and the INPUT hook rules for the DHCP port, in order.  A command
whose precondition fails (e.g. flushing a missing chain) leaves the
state unchanged, matching a failing iptables invocation. -/

/-- One rule inside a managed chain. -/
inductive Rule where
  | drop (mac : Str)
  | accept
  | reject
deriving DecidableEq, Repr

/-- Abstract netfilter state: existing chains with their contents, and
the INPUT-hook targets for UDP port 67 in rule order. -/
structure NetState where
  chains : List (Str × List Rule)
  hooks : List Str
deriving DecidableEq, Repr

def chainLookup : List (Str × List Rule) → Str → Option (List Rule)
  | [], _ => none
  | (k, v) :: rest, c => if k = c then some v else chainLookup rest c

def setChain (ns : NetState) (c : Str) (rs : List Rule) : NetState :=
  { ns with chains := ns.chains.map (fun p => if p.1 = c then (c, rs) else p) }

def appendRule (ns : NetState) (c : Str) (r : Rule) : NetState :=
  match chainLookup ns.chains c with
  | some rs => setChain ns c (rs ++ [r])
  | none => ns

/-- Effect of one iptables command on the abstract state.  `-E` renames
the chain and every reference to it (iptables jumps follow a rename). -/
def applyCmd (ns : NetState) : Cmd → NetState
  | .newChain c =>
    if (chainLookup ns.chains c).isSome then ns
    else { ns with chains := ns.chains ++ [(c, [])] }
  | .flush c =>
    if (chainLookup ns.chains c).isSome then setChain ns c [] else ns
  | .delChain c =>
    match chainLookup ns.chains c with
    | some [] => { ns with chains := ns.chains.filter (fun p => decide (p.1 ≠ c)) }
    | _ => ns
  | .appendDrop c m => appendRule ns c (.drop m)
  | .appendAccept c => appendRule ns c .accept
  | .appendReject c => appendRule ns c .reject
  | .insertInput _ c =>
    if (chainLookup ns.chains c).isSome then { ns with hooks := c :: ns.hooks } else ns
  | .deleteInput _ c =>
    if c ∈ ns.hooks then { ns with hooks := ns.hooks.erase c } else ns
  | .rename old new =>
    if (chainLookup ns.chains old).isSome && (chainLookup ns.chains new).isNone then
      { chains := ns.chains.map (fun p => if p.1 = old then (new, p.2) else p),
        hooks := ns.hooks.map (fun h => if h = old then new else h) }
    else ns

/-- All states reached while executing a command list, the start and end
states included. -/
def statesFrom (ns : NetState) : List Cmd → List NetState
  | [] => [ns]
  | c :: rest => ns :: statesFrom (applyCmd ns c) rest

/-- The effective DHCP interception: the target of the first matching
INPUT rule, if any. -/
def hookTarget (ns : NetState) : Option Str := ns.hooks.head?

/-- Invariant 3.4 of the spec: the DHCP hook points to exactly one chain
that exists and is fully populated — its content is one of the two
complete generations of the rule set. -/
def hookInv (oldR newR : List Rule) (ns : NetState) : Prop :=
  ∃ c rs, hookTarget ns = some c ∧ chainLookup ns.chains c = some rs ∧
    (rs = oldR ∨ rs = newR)

/-! ### Node processing session

The orchestrator module itself (`process.py`) is not under `src/`; only
its tests are (`src/ironic_discoverd/test/test_process.py`).  The
definitions below model the missing `process._process_node` and its
retry helper. -/

/-- Outcome of one inventory client call: success, an
optimistic-concurrency `Conflict`, or any other failure. -/
inductive Resp where
  | ok
  | conflict
  | err
deriving DecidableEq, Repr

/-- Result of a bounded-retry loop. -/
inductive RetryRes where
  | success
  | exhausted
  | failed
deriving DecidableEq, Repr

/-- Modelled from the spec: the bounded-retry combinator of the missing
process module ("Every inventory mutation that can report an
optimistic-concurrency conflict is retried with a bounded attempt count
and short delay between attempts; any other failure propagates
immediately", spec section 5; "per-update conflicts are retried up to
the bounded attempt count, after which they escalate", section 7).
`resp i` is the outcome of the i-th call overall; the result pairs the
number of calls made with how the loop ended. -/
def retryOnConflict (resp : Nat → Resp) (start : Nat) : Nat → Nat × RetryRes
  | 0 => (0, .exhausted)
  | n + 1 =>
    match resp start with
    | .ok => (1, .success)
    | .err => (1, .failed)
    | .conflict =>
      let r := retryOnConflict resp (start + 1) n
      (r.1 + 1, r.2)

/-- The node updates a session can commit, in the granularity observed
by the tests: the pre-power-off update carrying the baseline property
patch, the credentials patch, and the post-power-off finalisation
patch. -/
inductive PatchKind where
  | baseline
  | credsPatch
  | finalPatch
deriving DecidableEq, Repr

/-- Inputs of one session run: session identity and options, the
configured timeout and retry bounds, and the scripted responses of the
inventory client (indexed by per-method call counters) together with
the wall clock sampled at each power-off deadline check. -/
structure SessIn where
  uuid : Str
  startedAt : Nat
  timeout : Nat
  attempts : Nat
  hasCreds : Bool
  credRetries : Nat
  credProbeOk : Nat → Bool
  updateResp : Nat → Resp
  powerResp : Nat → Resp
  isOff : Nat → Bool
  clock : Nat → Nat

/-- Observables of one session run: how many `node.update` calls were
made, which updates were committed (in order), the error raised out of
the run (if any), the argument of the one-shot `finished` transition,
and how many power-state polls happened. -/
structure SessOut where
  updateCalls : Nat
  committed : List PatchKind
  raised : Option Str
  finishedWith : Option (Option Str)
  polls : Nat
deriving DecidableEq

/-- Modelled from the spec: the power-off waiting loop of the missing
process module ("poll node state until it reports powered-off or until
elapsed time since `session.started_at` exceeds the configured timeout",
spec section 4.3 step 5).  Returns `some (polls, true)` on observed
power-off, `some (polls, false)` on timeout, `none` if the fuel ran out
before either. -/
def waitPowerOff (inp : SessIn) : Nat → Nat → Option (Nat × Bool)
  | _, 0 => none
  | i, fuel + 1 =>
    if inp.clock i > inp.startedAt + inp.timeout then some (i, false)
    else if inp.isOff i then some (i + 1, true)
    else waitPowerOff inp (i + 1) fuel

def timeoutMsg (uuid : Str) : Str :=
  str "Timeout waiting for node " ++ uuid ++ str " to power off after introspection"

def powerFailMsg (uuid : Str) : Str :=
  str "Failed to power off node " ++ uuid
    ++ str ", check it's power management configuration"

def credsFailMsg (uuid : Str) : Str :=
  str "Failed to validate updated IPMI credentials for node " ++ uuid
    ++ str ", node might require maintenance"

def unexpectedMsg : Str := str "Unexpected exception during processing"

/-- Modelled from the spec: `_process_node` / `runSession` of the missing
process module (spec section 4.3), with the phase order pinned by its
tests in `src/ironic_discoverd/test/test_process.py` (TestProcessNode):
one pre-power-off node update carrying the baseline property patch,
optional credential rotation (no power-off after exhausting validation),
the power-off command with conflict retry, the deadline-bounded
power-state polling, one post-power-off finalisation update, then the
one-shot `finished` transition.  Update conflicts are retried through
`retryOnConflict`; a non-conflict update failure surfaces through the
generic unexpected-error path.  Port sync is omitted: it issues no node
update and no claim depends on it. -/
def runSession (inp : SessIn) (fuel : Nat) : Option SessOut :=
  let r1 := retryOnConflict inp.updateResp 0 inp.attempts
  if r1.2 ≠ .success then
    some ⟨r1.1, [], some unexpectedMsg, some (some unexpectedMsg), 0⟩
  else
    let afterBase : List PatchKind := [.baseline]
    if inp.hasCreds then
      let r2 := retryOnConflict inp.updateResp r1.1 inp.attempts
      if r2.2 ≠ .success then
        some ⟨r1.1 + r2.1, afterBase, some unexpectedMsg, some (some unexpectedMsg), 0⟩
      else if ((List.range inp.credRetries).filter inp.credProbeOk).isEmpty then
        some ⟨r1.1 + r2.1, afterBase ++ [.credsPatch],
          some (credsFailMsg inp.uuid), some (some (credsFailMsg inp.uuid)), 0⟩
      else
        let r3 := retryOnConflict inp.powerResp 0 inp.attempts
        if r3.2 ≠ .success then
          some ⟨r1.1 + r2.1, afterBase ++ [.credsPatch],
            some (powerFailMsg inp.uuid), some (some (powerFailMsg inp.uuid)), 0⟩
        else
          match waitPowerOff inp 0 fuel with
          | none => none
          | some (polls, false) =>
            some ⟨r1.1 + r2.1, afterBase ++ [.credsPatch],
              some (timeoutMsg inp.uuid), some (some (timeoutMsg inp.uuid)), polls⟩
          | some (polls, true) =>
            let r4 := retryOnConflict inp.updateResp (r1.1 + r2.1) inp.attempts
            if r4.2 ≠ .success then
              some ⟨r1.1 + r2.1 + r4.1, afterBase ++ [.credsPatch],
                some unexpectedMsg, some (some unexpectedMsg), polls⟩
            else
              some ⟨r1.1 + r2.1 + r4.1, afterBase ++ [.credsPatch, .finalPatch],
                none, some none, polls⟩
    else
      let r3 := retryOnConflict inp.powerResp 0 inp.attempts
      if r3.2 ≠ .success then
        some ⟨r1.1, afterBase, some (powerFailMsg inp.uuid),
          some (some (powerFailMsg inp.uuid)), 0⟩
      else
        match waitPowerOff inp 0 fuel with
        | none => none
        | some (polls, false) =>
          some ⟨r1.1, afterBase, some (timeoutMsg inp.uuid),
            some (some (timeoutMsg inp.uuid)), polls⟩
        | some (polls, true) =>
          let r4 := retryOnConflict inp.updateResp r1.1 inp.attempts
          if r4.2 ≠ .success then
            some ⟨r1.1 + r4.1, afterBase, some unexpectedMsg,
              some (some unexpectedMsg), polls⟩
          else
            some ⟨r1.1 + r4.1, afterBase ++ [.finalPatch], none, some none, polls⟩

/-! ### Helper lemmas -/

def allSucceed : Nat → Bool := fun _ => true

theorem runCmds_allSucceed (cs : List (Cmd × Bool)) : ∀ es : ExecSt,
    runCmds allSucceed cs es
      = (⟨es.trace ++ cs.map (·.1), es.idx + cs.length⟩, true) := by
  induction cs with
  | nil => intro es; simp [runCmds]
  | cons p rest ih =>
    intro es
    obtain ⟨c, ign⟩ := p
    simp [runCmds, allSucceed, ih]
    omega

theorem runCmds_trace_mono (oracle : Nat → Bool) (cs : List (Cmd × Bool)) :
    ∀ es : ExecSt, es.trace.length ≤ (runCmds oracle cs es).1.trace.length := by
  induction cs with
  | nil => intro es; simp [runCmds]
  | cons p rest ih =>
    intro es
    obtain ⟨c, ign⟩ := p
    simp only [runCmds]
    split
    · exact le_trans (by simp) (ih _)
    · simp

theorem runCmds_trace_grows (oracle : Nat → Bool) (p : Cmd × Bool)
    (cs : List (Cmd × Bool)) (es : ExecSt) :
    es.trace.length < (runCmds oracle (p :: cs) es).1.trace.length := by
  obtain ⟨c, ign⟩ := p
  simp only [runCmds]
  split
  · exact lt_of_lt_of_le (by simp) (runCmds_trace_mono oracle cs _)
  · simp

theorem ibMapInterfaces_filter_readable (env : Env) (bl : List Str) (ports : List Port) :
    ∀ (l : List Str) (acc : List (Str × Str)),
      ibMapInterfaces env bl ports acc (l.filter (fun i => (env.neighsFile i).isSome))
        = ibMapInterfaces env bl ports acc l := by
  intro l
  induction l with
  | nil => intro acc; simp [ibMapInterfaces]
  | cons i rest ih =>
    intro acc
    cases h : env.neighsFile i with
    | none => simp [ibMapInterfaces, h, ih]
    | some data => simp [ibMapInterfaces, h, ih]

theorem retry_conflicts_then_ok (resp : Nat → Resp) :
    ∀ (n s A : Nat), n < A → (∀ k < n, resp (s + k) = .conflict) →
      resp (s + n) = .ok → retryOnConflict resp s A = (n + 1, .success) := by
  intro n
  induction n with
  | zero =>
    intro s A hA hc hok
    obtain ⟨a, rfl⟩ : ∃ a, A = a + 1 := ⟨A - 1, by omega⟩
    simpa [retryOnConflict] using by rw [show s + 0 = s from rfl] at hok; simp [retryOnConflict, hok]
  | succ n ih =>
    intro s A hA hc hok
    obtain ⟨a, rfl⟩ : ∃ a, A = a + 1 := ⟨A - 1, by omega⟩
    have h0 : resp s = .conflict := by simpa using hc 0 (by omega)
    have ih' := ih (s + 1) a (by omega)
      (fun k hk => by simpa [Nat.add_assoc, Nat.add_comm 1 k] using hc (k + 1) (by omega))
      (by simpa [Nat.add_assoc, Nat.add_comm 1 n] using hok)
    simp [retryOnConflict, h0, ih']

theorem retry_err_propagates (resp : Nat → Resp) :
    ∀ (n s A : Nat), n < A → (∀ k < n, resp (s + k) = .conflict) →
      resp (s + n) = .err → retryOnConflict resp s A = (n + 1, .failed) := by
  intro n
  induction n with
  | zero =>
    intro s A hA hc herr
    obtain ⟨a, rfl⟩ : ∃ a, A = a + 1 := ⟨A - 1, by omega⟩
    rw [show s + 0 = s from rfl] at herr
    simp [retryOnConflict, herr]
  | succ n ih =>
    intro s A hA hc herr
    obtain ⟨a, rfl⟩ : ∃ a, A = a + 1 := ⟨A - 1, by omega⟩
    have h0 : resp s = .conflict := by simpa using hc 0 (by omega)
    have ih' := ih (s + 1) a (by omega)
      (fun k hk => by simpa [Nat.add_assoc, Nat.add_comm 1 k] using hc (k + 1) (by omega))
      (by simpa [Nat.add_assoc, Nat.add_comm 1 n] using herr)
    simp [retryOnConflict, h0, ih']

theorem waitPowerOff_timeout (inp : SessIn) :
    ∀ (K i fuel : Nat), K < fuel →
      (∀ j < K, inp.clock (i + j) ≤ inp.startedAt + inp.timeout ∧ inp.isOff (i + j) = false) →
      inp.clock (i + K) > inp.startedAt + inp.timeout →
      waitPowerOff inp i fuel = some (i + K, false) := by
  intro K
  induction K with
  | zero =>
    intro i fuel hf hK ht
    obtain ⟨f, rfl⟩ : ∃ f, fuel = f + 1 := ⟨fuel - 1, by omega⟩
    rw [show i + 0 = i from rfl] at ht
    simp [waitPowerOff, ht]
  | succ K ih =>
    intro i fuel hf hK ht
    obtain ⟨f, rfl⟩ : ∃ f, fuel = f + 1 := ⟨fuel - 1, by omega⟩
    have h0 := hK 0 (by omega)
    rw [show i + 0 = i from rfl] at h0
    have ih' := ih (i + 1) f (by omega)
      (fun j hj => by simpa [Nat.add_assoc, Nat.add_comm 1 j] using hK (j + 1) (by omega))
      (by simpa [Nat.add_assoc, Nat.add_comm 1 K] using ht)
    have hnot : ¬ inp.clock i > inp.startedAt + inp.timeout := by omega
    simp [waitPowerOff, hnot, h0.2, ih']
    omega

def execCmds (ns : NetState) (cs : List Cmd) : NetState := cs.foldl applyCmd ns

theorem statesFrom_ne_nil (ns : NetState) (cs : List Cmd) : statesFrom ns cs ≠ [] := by
  cases cs <;> simp [statesFrom]

theorem statesFrom_append (ys : List Cmd) :
    ∀ (xs : List Cmd) (ns : NetState),
      statesFrom ns (xs ++ ys)
        = (statesFrom ns xs).dropLast ++ statesFrom (execCmds ns xs) ys := by
  intro xs
  induction xs with
  | nil => intro ns; simp [statesFrom, execCmds]
  | cons x xs ih =>
    intro ns
    simp only [List.cons_append, statesFrom, execCmds, List.foldl_cons]
    rw [List.dropLast_cons_of_ne_nil (statesFrom_ne_nil _ _), List.cons_append]
    rw [show List.foldl applyCmd (applyCmd ns x) xs = execCmds (applyCmd ns x) xs from rfl]
    rw [← ih (applyCmd ns x)]
    rfl

theorem mem_statesFrom_append {ns' : NetState} (xs ys : List Cmd) (ns : NetState)
    (h : ns' ∈ statesFrom ns (xs ++ ys)) :
    ns' ∈ statesFrom ns xs ∨ ns' ∈ statesFrom (execCmds ns xs) ys := by
  rw [statesFrom_append] at h
  rcases List.mem_append.mp h with h | h
  · exact Or.inl ((List.dropLast_sublist _).mem h)
  · exact Or.inr h

/-- The append command that installs a given rule into a chain. -/
def ruleCmd (c : Str) : Rule → Cmd
  | .drop m => .appendDrop c m
  | .accept => .appendAccept c
  | .reject => .appendReject c

theorem applyCmd_ruleCmd (ns : NetState) (c : Str) (r : Rule) :
    applyCmd ns (ruleCmd c r) = appendRule ns c r := by
  cases r <;> rfl

theorem populate_inv (main nc : Str) (old newR : List Rule) (hne : nc ≠ main) :
    ∀ (rs preR : List Rule),
      (∀ ns ∈ statesFrom ⟨[(main, old), (nc, preR)], [main]⟩ (rs.map (ruleCmd nc)),
        hookInv old newR ns)
      ∧ execCmds ⟨[(main, old), (nc, preR)], [main]⟩ (rs.map (ruleCmd nc))
          = ⟨[(main, old), (nc, preR ++ rs)], [main]⟩ := by
  have hmn : main ≠ nc := Ne.symm hne
  intro rs
  induction rs with
  | nil =>
    intro preR
    constructor
    · intro ns h
      simp only [List.map_nil, statesFrom, List.mem_singleton] at h
      subst h
      exact ⟨main, old, rfl, by simp [chainLookup], Or.inl rfl⟩
    · simp [execCmds]
  | cons r rs ih =>
    intro preR
    have hstep : applyCmd ⟨[(main, old), (nc, preR)], [main]⟩ (ruleCmd nc r)
        = ⟨[(main, old), (nc, preR ++ [r])], [main]⟩ := by
      rw [applyCmd_ruleCmd]
      simp [appendRule, chainLookup, setChain, hmn, hne]
    constructor
    · intro ns h
      simp only [List.map_cons, statesFrom, List.mem_cons] at h
      rcases h with rfl | h
      · exact ⟨main, old, rfl, by simp [chainLookup], Or.inl rfl⟩
      · rw [hstep] at h
        exact ((ih (preR ++ [r])).1) ns h
    · simp only [List.map_cons, execCmds, List.foldl_cons]
      rw [show List.foldl applyCmd (applyCmd ⟨[(main, old), (nc, preR)], [main]⟩ (ruleCmd nc r)) (rs.map (ruleCmd nc)) = execCmds (applyCmd ⟨[(main, old), (nc, preR)], [main]⟩ (ruleCmd nc r)) (rs.map (ruleCmd nc)) from rfl]
      rw [hstep, (ih (preR ++ [r])).2]
      simp

theorem prelude_inv (iface main nc : Str) (old newR : List Rule) (hne : nc ≠ main) :
    (∀ ns ∈ statesFrom ⟨[(main, old)], [main]⟩
        [Cmd.deleteInput iface nc, Cmd.flush nc, Cmd.delChain nc, Cmd.newChain nc],
      hookInv old newR ns)
    ∧ execCmds ⟨[(main, old)], [main]⟩
        [Cmd.deleteInput iface nc, Cmd.flush nc, Cmd.delChain nc, Cmd.newChain nc]
        = ⟨[(main, old), (nc, [])], [main]⟩ := by
  have hmn : main ≠ nc := Ne.symm hne
  have hd : applyCmd ⟨[(main, old)], [main]⟩ (Cmd.deleteInput iface nc)
      = ⟨[(main, old)], [main]⟩ := by
    simp [applyCmd, hne]
  have hf : applyCmd ⟨[(main, old)], [main]⟩ (Cmd.flush nc) = ⟨[(main, old)], [main]⟩ := by
    simp [applyCmd, chainLookup, hmn]
  have hx : applyCmd ⟨[(main, old)], [main]⟩ (Cmd.delChain nc) = ⟨[(main, old)], [main]⟩ := by
    simp [applyCmd, chainLookup, hmn]
  have hn : applyCmd ⟨[(main, old)], [main]⟩ (Cmd.newChain nc)
      = ⟨[(main, old), (nc, [])], [main]⟩ := by
    simp [applyCmd, chainLookup, hmn]
  constructor
  · intro ns h
    simp only [statesFrom, hd, hf, hx, hn, List.mem_cons, List.mem_singleton,
      List.not_mem_nil, or_false] at h
    have hbase : hookInv old newR ⟨[(main, old)], [main]⟩ :=
      ⟨main, old, rfl, by simp [chainLookup], Or.inl rfl⟩
    rcases h with rfl | rfl | rfl | rfl | rfl
    · exact hbase
    · exact hbase
    · exact hbase
    · exact hbase
    · exact ⟨main, old, rfl, by simp [chainLookup], Or.inl rfl⟩
  · simp [execCmds, hd, hf, hx, hn]

theorem swap_tail_inv (iface main nc : Str) (old newR : List Rule) (hne : nc ≠ main) :
    ∀ ns ∈ statesFrom ⟨[(main, old), (nc, newR)], [main]⟩
        [Cmd.insertInput iface nc, Cmd.deleteInput iface main, Cmd.flush main,
         Cmd.delChain main, Cmd.rename nc main],
      hookInv old newR ns := by
  have hmn : main ≠ nc := Ne.symm hne
  have h1 : applyCmd ⟨[(main, old), (nc, newR)], [main]⟩ (Cmd.insertInput iface nc)
      = ⟨[(main, old), (nc, newR)], [nc, main]⟩ := by
    simp [applyCmd, chainLookup, hmn]
  have h2 : applyCmd ⟨[(main, old), (nc, newR)], [nc, main]⟩ (Cmd.deleteInput iface main)
      = ⟨[(main, old), (nc, newR)], [nc]⟩ := by
    simp [applyCmd, List.erase_cons, hne]
  have h3 : applyCmd ⟨[(main, old), (nc, newR)], [nc]⟩ (Cmd.flush main)
      = ⟨[(main, []), (nc, newR)], [nc]⟩ := by
    simp [applyCmd, chainLookup, setChain, hmn, hne]
  have h4 : applyCmd ⟨[(main, []), (nc, newR)], [nc]⟩ (Cmd.delChain main)
      = ⟨[(nc, newR)], [nc]⟩ := by
    simp [applyCmd, chainLookup, hmn, hne]
  have h5 : applyCmd ⟨[(nc, newR)], [nc]⟩ (Cmd.rename nc main)
      = ⟨[(main, newR)], [main]⟩ := by
    simp [applyCmd, chainLookup, hmn]
  intro ns h
  simp only [statesFrom, h1, h2, h3, h4, h5, List.mem_cons, List.mem_singleton,
    List.not_mem_nil, or_false] at h
  rcases h with rfl | rfl | rfl | rfl | rfl | rfl
  · exact ⟨main, old, rfl, by simp [chainLookup], Or.inl rfl⟩
  · exact ⟨nc, newR, rfl, by simp [chainLookup, hmn], Or.inr rfl⟩
  · exact ⟨nc, newR, rfl, by simp [chainLookup, hmn], Or.inr rfl⟩
  · exact ⟨nc, newR, rfl, by simp [chainLookup, hmn], Or.inr rfl⟩
  · exact ⟨nc, newR, rfl, by simp [chainLookup], Or.inr rfl⟩
  · exact ⟨main, newR, rfl, by simp [chainLookup], Or.inr rfl⟩

/-- Every intermediate observable state of a `_temporary_chain` swap,
started from a steady state in which the DHCP hook points to the fully
populated primary chain, keeps the hook on exactly one fully populated
chain (the old generation `old` or the new generation `rs`). -/
theorem swap_all_states_inv (iface main nc : Str) (old rs : List Rule) (hne : nc ≠ main) :
    ∀ ns ∈ statesFrom ⟨[(main, old)], [main]⟩
        ([Cmd.deleteInput iface nc, Cmd.flush nc, Cmd.delChain nc, Cmd.newChain nc]
          ++ rs.map (ruleCmd nc)
          ++ [Cmd.insertInput iface nc, Cmd.deleteInput iface main, Cmd.flush main,
              Cmd.delChain main, Cmd.rename nc main]),
      hookInv old rs ns := by
  intro ns h
  rw [List.append_assoc] at h
  rcases mem_statesFrom_append _ _ _ h with h | h
  · exact (prelude_inv iface main nc old rs hne).1 ns h
  · rw [(prelude_inv iface main nc old rs hne).2] at h
    rcases mem_statesFrom_append _ _ _ h with h | h
    · exact (populate_inv main nc old rs hne rs []).1 ns h
    · rw [(populate_inv main nc old rs hne rs []).2] at h
      simp only [List.nil_append] at h
      exact swap_tail_inv iface main nc old rs hne ns h

/-- The commands issued by the rewrite path of `update_filters`, in
order: pre-clean and create the temporary chain, one DROP per
(remapped) blacklisted MAC, the trailing ACCEPT, then the swap. -/
def rewriteTrace (i c n : Str) (bl : List Str) (mapping : List (Str × Str)) : List Cmd :=
  [.deleteInput i n, .flush n, .delChain n, .newChain n]
    ++ bl.map (fun m => Cmd.appendDrop n (remapMac mapping m))
    ++ [.appendAccept n, .insertInput i n, .deleteInput i c, .flush c, .delChain c,
        .rename n c]

/-- The commands issued by `_disable_dhcp` when DHCP is enabled. -/
def disableTrace (i c n : Str) : List Cmd :=
  [.deleteInput i n, .flush n, .delChain n, .newChain n, .appendReject n,
   .insertInput i n, .deleteInput i c, .flush c, .delChain c, .rename n c]

theorem update_filters_rewrite_allSucceed (cfg : Config) (env : Env) (st : FwState)
    (es : ExecSt) (i c n : Str)
    (hm : cfg.manage_firewall = true)
    (hi : st.interface_ = some i) (hc : st.chain = some c) (hn : st.newChain = some n)
    (hact : _should_enable_dhcp cfg env = true)
    (hmiss : cacheHit st.blacklistCache (toBlacklist env)
      (_ib_mac_to_rmac_mapping env cfg (toBlacklist env) env.ports) = false) :
    update_filters cfg env allSucceed st es
      = ⟨{ st with enabled := true, blacklistCache := some (toBlacklist env).toFinset },
         ⟨es.trace ++ rewriteTrace i c n (toBlacklist env)
            (_ib_mac_to_rmac_mapping env cfg (toBlacklist env) env.ports),
          es.idx + ((toBlacklist env).length + 10)⟩, .ok⟩ := by
  obtain ⟨io, co, no, bc, en⟩ := st
  simp only [FwState.mk.injEq] at hi hc hn
  subst hi; subst hc; subst hn
  simp only [update_filters, hm, Bool.not_true, Bool.false_eq_true, if_false, hact,
    hmiss, runCmds_allSucceed, ite_true, ite_false, if_true]
  simp [rewriteTrace, _temporary_chain, _clean_up, swapCmds, List.map_map]

theorem update_filters_skip (cfg : Config) (env : Env) (oracle : Nat → Bool)
    (st : FwState) (es : ExecSt) (i c n : Str)
    (hm : cfg.manage_firewall = true)
    (hi : st.interface_ = some i) (hc : st.chain = some c) (hn : st.newChain = some n)
    (hact : _should_enable_dhcp cfg env = true)
    (hhit : cacheHit st.blacklistCache (toBlacklist env)
      (_ib_mac_to_rmac_mapping env cfg (toBlacklist env) env.ports) = true) :
    update_filters cfg env oracle st es = ⟨st, es, .ok⟩ := by
  obtain ⟨io, co, no, bc, en⟩ := st
  simp only [FwState.mk.injEq] at hi hc hn
  subst hi; subst hc; subst hn
  simp only [update_filters, hm, Bool.not_true, Bool.false_eq_true, if_false, hact,
    hhit, if_true]

theorem update_filters_rewrite_general (cfg : Config) (env : Env) (oracle : Nat → Bool)
    (st : FwState) (es : ExecSt) (i c n : Str)
    (hm : cfg.manage_firewall = true)
    (hi : st.interface_ = some i) (hc : st.chain = some c) (hn : st.newChain = some n)
    (hact : _should_enable_dhcp cfg env = true)
    (hmiss : cacheHit st.blacklistCache (toBlacklist env)
      (_ib_mac_to_rmac_mapping env cfg (toBlacklist env) env.ports) = false) :
    update_filters cfg env oracle st es
      = (let r := runCmds oracle
          (_temporary_chain i n c
            ((toBlacklist env).map (fun m => (Cmd.appendDrop n
                (remapMac (_ib_mac_to_rmac_mapping env cfg (toBlacklist env) env.ports) m),
              false))
              ++ [(Cmd.appendAccept n, false)])) es
        if r.2 then
          ⟨{ st with enabled := true, blacklistCache := some (toBlacklist env).toFinset },
           r.1, .ok⟩
        else ⟨{ st with blacklistCache := none }, r.1, .iptablesError⟩) := by
  obtain ⟨io, co, no, bc, en⟩ := st
  simp only [FwState.mk.injEq] at hi hc hn
  subst hi; subst hc; subst hn
  simp only [update_filters, hm, Bool.not_true, Bool.false_eq_true, if_false, hact,
    hmiss, if_true]

theorem update_filters_disable_allSucceed (cfg : Config) (env : Env)
    (st : FwState) (es : ExecSt) (i c n : Str)
    (hm : cfg.manage_firewall = true)
    (hi : st.interface_ = some i) (hc : st.chain = some c) (hn : st.newChain = some n)
    (hidle : _should_enable_dhcp cfg env = false)
    (hen : st.enabled = true) :
    update_filters cfg env allSucceed st es
      = ⟨{ st with blacklistCache := none, enabled := false },
         ⟨es.trace ++ disableTrace i c n, es.idx + 10⟩, .ok⟩ := by
  obtain ⟨io, co, no, bc, en⟩ := st
  simp only [FwState.mk.injEq] at hi hc hn
  subst hi; subst hc; subst hn
  subst hen
  simp only [update_filters, hm, Bool.not_true, Bool.false_eq_true, if_false, hidle,
    Bool.not_false, if_true, _disable_dhcp, runCmds_allSucceed]
  simp [disableTrace, _temporary_chain, _clean_up, swapCmds]

theorem update_filters_disable_noop (cfg : Config) (env : Env) (oracle : Nat → Bool)
    (st : FwState) (es : ExecSt) (i c n : Str)
    (hm : cfg.manage_firewall = true)
    (hi : st.interface_ = some i) (hc : st.chain = some c) (hn : st.newChain = some n)
    (hidle : _should_enable_dhcp cfg env = false)
    (hen : st.enabled = false) :
    update_filters cfg env oracle st es = ⟨st, es, .ok⟩ := by
  obtain ⟨io, co, no, bc, en⟩ := st
  simp only [FwState.mk.injEq] at hi hc hn
  subst hi; subst hc; subst hn
  subst hen
  simp only [update_filters, hm, Bool.not_true, Bool.false_eq_true, if_false, hidle,
    Bool.not_false, if_true, _disable_dhcp]

/-! ### Claims -/

/-- C10: an EoIB interface whose neighbour file cannot be read is logged
and skipped: the remap mapping, and consequently the whole
`update_filters` call (final state, issued commands and outcome), are
exactly what they would be had the unreadable interfaces not been
configured at all — the read failure neither propagates nor aborts the
reconciliation. -/
theorem neigh_read_failure_skipped (cfg : Config) (env : Env) (oracle : Nat → Bool)
    (st : FwState) (es : ExecSt) :
    _ib_mac_to_rmac_mapping env
        { cfg with ethoib_interfaces :=
            cfg.ethoib_interfaces.filter (fun i => (env.neighsFile i).isSome) }
        (toBlacklist env) env.ports
      = _ib_mac_to_rmac_mapping env cfg (toBlacklist env) env.ports
    ∧ update_filters cfg env oracle st es
      = update_filters
          { cfg with ethoib_interfaces :=
              cfg.ethoib_interfaces.filter (fun i => (env.neighsFile i).isSome) }
          env oracle st es := by
  have hmap : ∀ (bl : List Str) (ports : List Port),
      _ib_mac_to_rmac_mapping env
          { cfg with ethoib_interfaces :=
              cfg.ethoib_interfaces.filter (fun i => (env.neighsFile i).isSome) }
          bl ports
        = _ib_mac_to_rmac_mapping env cfg bl ports := by
    intro bl ports
    simpa [_ib_mac_to_rmac_mapping] using
      ibMapInterfaces_filter_readable env bl ports cfg.ethoib_interfaces []
  refine ⟨hmap _ _, ?_⟩
  simp only [update_filters, _should_enable_dhcp, hmap]

/-- C9: with firewall management enabled, calling `update_filters`
before `init()` ran (the managed interface still unset) fails the
assertion and issues no commands; `init()` establishes the interface
and chain names, after which `update_filters` never fails the
assertion. -/
theorem update_filters_requires_init (cfg : Config) (env env' : Env)
    (oracle oracle' oracle'' : Nat → Bool) (st : FwState) (es es' : ExecSt)
    (hm : cfg.manage_firewall = true) (hu : st.interface_ = none) :
    update_filters cfg env oracle st es = ⟨st, es, .assertionError⟩
    ∧ (init cfg oracle' st es).st.interface_ = some cfg.dnsmasq_interface
    ∧ (init cfg oracle' st es).st.chain = some cfg.firewall_chain
    ∧ (init cfg oracle' st es).st.newChain = some (cfg.firewall_chain ++ str "_temp")
    ∧ (update_filters cfg env' oracle'' (init cfg oracle' st es).st es').outcome
        ≠ .assertionError := by
  obtain ⟨io, co, no, bc, en⟩ := st
  simp only [FwState.mk.injEq] at hu
  subst hu
  refine ⟨?_, ?_, ?_, ?_, ?_⟩
  · simp [update_filters, hm]
  · simp [init, hm]
  · simp [init, hm]
  · simp [init, hm]
  · simp only [init, hm, Bool.not_true, Bool.false_eq_true, if_false]
    simp only [update_filters, hm, Bool.not_true, Bool.false_eq_true, if_false]
    split
    · simp [_disable_dhcp]
      split
      · simp
      · split <;> simp
    · split
      · simp
      · split <;> simp

/-! Concrete fixtures used by witnesses and counterexamples. -/

def macW : Str := str "aa:bb:cc:dd:ee:ff"

def cidW : Str := str "aa:bb:cc:dd:ee:ff:00:11"

/-- A neighbour file mapping the GUID of `cidW` back to `macW` itself. -/
def dataSelfW : Str := str "EMAC=aa:bb:cc:dd:ee:ff IMAC=ib0:aa:bb:cc:dd:ee:ff:00:11"

/-- A neighbour file mapping the GUID of `cidW` to a distinct EMAC. -/
def dataEmacW : Str := str "EMAC=00:11:22:33:44:55 IMAC=ib0:aa:bb:cc:dd:ee:ff:00:11"

def cfgW : Config := ⟨true, str "br0", str "ii", [str "eth0"], false⟩

/-- Active introspection, one inventory port, no readable neighbour file. -/
def envActiveW : Env := ⟨true, [], [⟨macW, some cidW⟩], fun _ => none⟩

/-- Active introspection with a readable neighbour file that remaps the
port's address to itself. -/
def envSelfW : Env :=
  ⟨true, [], [⟨macW, some cidW⟩], fun i => if i = str "eth0" then some dataSelfW else none⟩

/-- Active introspection with a readable neighbour file that remaps the
port's address to a distinct Ethernet MAC. -/
def envEmacW : Env :=
  ⟨true, [], [⟨macW, some cidW⟩], fun i => if i = str "eth0" then some dataEmacW else none⟩

/-- Nothing on introspection, no not-found hook. -/
def envIdleW : Env := ⟨false, [], [], fun _ => none⟩

/-- The module state established by a successful `init` under `cfgW`. -/
def stW : FwState := ⟨some (str "br0"), some (str "ii"), some (str "ii_temp"), none, true⟩

/-- Witness for C9 at a concrete configuration and the pristine module
state. -/
theorem update_filters_requires_init_witness :
    update_filters cfgW envActiveW allSucceed FwState.initial ExecSt.empty
        = ⟨FwState.initial, ExecSt.empty, .assertionError⟩
    ∧ (init cfgW allSucceed FwState.initial ExecSt.empty).st.interface_
        = some cfgW.dnsmasq_interface
    ∧ (init cfgW allSucceed FwState.initial ExecSt.empty).st.chain
        = some cfgW.firewall_chain
    ∧ (init cfgW allSucceed FwState.initial ExecSt.empty).st.newChain
        = some (cfgW.firewall_chain ++ str "_temp")
    ∧ (update_filters cfgW envIdleW allSucceed
          (init cfgW allSucceed FwState.initial ExecSt.empty).st ExecSt.empty).outcome
        ≠ .assertionError :=
  update_filters_requires_init cfgW envActiveW envIdleW allSucceed allSucceed allSucceed
    FwState.initial ExecSt.empty ExecSt.empty rfl rfl

def isRejectCmd : Cmd → Bool
  | .appendReject _ => true
  | _ => false

/-- C6: with no active session and no not-found hook, a call from the
enabled state installs the blanket-reject chain — its command sequence
is `disableTrace`, which contains exactly one REJECT append — and marks
DHCP disabled; once disabled, a further idle call issues no filter
commands at all (state and trace unchanged). -/
theorem idle_disable_once_then_noop (cfg : Config) (env env' : Env) (oracle' : Nat → Bool)
    (st : FwState) (es : ExecSt) (i c n : Str)
    (hm : cfg.manage_firewall = true)
    (hi : st.interface_ = some i) (hc : st.chain = some c) (hn : st.newChain = some n)
    (hen : st.enabled = true)
    (hidle : _should_enable_dhcp cfg env = false)
    (hidle' : _should_enable_dhcp cfg env' = false) :
    (update_filters cfg env allSucceed st es).es.trace = es.trace ++ disableTrace i c n
    ∧ (disableTrace i c n).countP isRejectCmd = 1
    ∧ (update_filters cfg env allSucceed st es).st.enabled = false
    ∧ (update_filters cfg env allSucceed st es).outcome = .ok
    ∧ update_filters cfg env' oracle' (update_filters cfg env allSucceed st es).st
        (update_filters cfg env allSucceed st es).es
      = ⟨(update_filters cfg env allSucceed st es).st,
         (update_filters cfg env allSucceed st es).es, .ok⟩ := by
  have h1 := update_filters_disable_allSucceed cfg env st es i c n hm hi hc hn hidle hen
  rw [h1]
  refine ⟨rfl, ?_, rfl, rfl, ?_⟩
  · simp [disableTrace, isRejectCmd, List.countP_cons]
  · exact update_filters_disable_noop cfg env' oracle' _ _ i c n hm (by simp [hi])
      (by simp [hc]) (by simp [hn]) hidle' (by simp)

/-- Witness for C6 at a concrete idle environment. -/
theorem idle_disable_once_then_noop_witness :
    (update_filters cfgW envIdleW allSucceed stW ExecSt.empty).es.trace
        = ExecSt.empty.trace ++ disableTrace (str "br0") (str "ii") (str "ii_temp")
    ∧ (disableTrace (str "br0") (str "ii") (str "ii_temp")).countP isRejectCmd = 1
    ∧ (update_filters cfgW envIdleW allSucceed stW ExecSt.empty).st.enabled = false
    ∧ (update_filters cfgW envIdleW allSucceed stW ExecSt.empty).outcome = .ok
    ∧ update_filters cfgW envIdleW allSucceed
        (update_filters cfgW envIdleW allSucceed stW ExecSt.empty).st
        (update_filters cfgW envIdleW allSucceed stW ExecSt.empty).es
      = ⟨(update_filters cfgW envIdleW allSucceed stW ExecSt.empty).st,
         (update_filters cfgW envIdleW allSucceed stW ExecSt.empty).es, .ok⟩ :=
  idle_disable_once_then_noop cfgW envIdleW envIdleW allSucceed stW ExecSt.empty
    (str "br0") (str "ii") (str "ii_temp") rfl rfl rfl rfl rfl rfl rfl

def failAt7 : Nat → Bool := fun k => decide (k ≠ 7)

/-- Counterexample to C4 as stated: invocation index 7 of the apply (the
best-effort `-D INPUT ... -j CHAIN` removal of the old hook, issued with
`ignore=True`) fails, yet the call completes, reports success and sets
the cache to the new blacklist — a command failure during the apply
that does not leave the cache in the unknown state. -/
theorem cache_failure_cex :
    failAt7 7 = false
    ∧ (update_filters cfgW envActiveW failAt7 stW ExecSt.empty).es.trace.length = 11
    ∧ (update_filters cfgW envActiveW failAt7 stW ExecSt.empty).outcome = .ok
    ∧ (update_filters cfgW envActiveW failAt7 stW ExecSt.empty).st.blacklistCache
        = some (toBlacklist envActiveW).toFinset
    ∧ (update_filters cfgW envActiveW failAt7 stW ExecSt.empty).st.blacklistCache
        ≠ none := by
  refine ⟨rfl, rfl, rfl, by decide, by decide⟩

/-- C4 (amended): the cache reflects the last successfully applied rule
set: when the apply runs to completion (no non-ignored command failed)
the cache is set to the new blacklist and DHCP is marked enabled; when a
non-ignored command fails (`iptablesError`) the cache is left unknown,
so any later active-cycle call skips nothing and rewrites the rules
(its command trace strictly grows).  Failures of the best-effort
`ignore=True` commands do not abort the apply and do not prevent
caching (see the counterexample to the unamended claim). -/
theorem cache_reflects_successful_apply (cfg : Config) (env : Env) (oracle : Nat → Bool)
    (st : FwState) (es : ExecSt) (i c n : Str)
    (hm : cfg.manage_firewall = true)
    (hi : st.interface_ = some i) (hc : st.chain = some c) (hn : st.newChain = some n)
    (hact : _should_enable_dhcp cfg env = true)
    (hmiss : cacheHit st.blacklistCache (toBlacklist env)
      (_ib_mac_to_rmac_mapping env cfg (toBlacklist env) env.ports) = false) :
    ((update_filters cfg env oracle st es).outcome = .ok →
      (update_filters cfg env oracle st es).st.blacklistCache
          = some (toBlacklist env).toFinset
      ∧ (update_filters cfg env oracle st es).st.enabled = true)
    ∧ ((update_filters cfg env oracle st es).outcome = .iptablesError →
      (update_filters cfg env oracle st es).st.blacklistCache = none
      ∧ ∀ (env' : Env) (oracle' : Nat → Bool) (es' : ExecSt),
          _should_enable_dhcp cfg env' = true →
          es'.trace.length
            < (update_filters cfg env' oracle'
                (update_filters cfg env oracle st es).st es').es.trace.length) := by
  rw [update_filters_rewrite_general cfg env oracle st es i c n hm hi hc hn hact hmiss]
  dsimp only
  by_cases hb : (runCmds oracle
      (_temporary_chain i n c
        ((toBlacklist env).map (fun m => (Cmd.appendDrop n
            (remapMac (_ib_mac_to_rmac_mapping env cfg (toBlacklist env) env.ports) m),
          false))
          ++ [(Cmd.appendAccept n, false)])) es).2 = true
  · rw [if_pos hb]
    exact ⟨fun _ => ⟨rfl, rfl⟩, fun h => absurd h (by simp)⟩
  · rw [if_neg hb]
    refine ⟨fun h => absurd h (by simp), fun _ => ⟨rfl, ?_⟩⟩
    intro env' oracle' es' hact'
    rw [update_filters_rewrite_general cfg env' oracle'
      { st with blacklistCache := none } es' i c n hm (by simp [hi]) (by simp [hc])
      (by simp [hn]) hact' rfl]
    dsimp only
    have hgrow : es'.trace.length
        < (runCmds oracle'
            (_temporary_chain i n c
              ((toBlacklist env').map (fun m => (Cmd.appendDrop n
                  (remapMac (_ib_mac_to_rmac_mapping env' cfg (toBlacklist env') env'.ports) m),
                false))
                ++ [(Cmd.appendAccept n, false)])) es').1.trace.length := by
      exact runCmds_trace_grows oracle' (Cmd.deleteInput i n, true) _ es'
    by_cases hb' : (runCmds oracle'
        (_temporary_chain i n c
          ((toBlacklist env').map (fun m => (Cmd.appendDrop n
              (remapMac (_ib_mac_to_rmac_mapping env' cfg (toBlacklist env') env'.ports) m),
            false))
            ++ [(Cmd.appendAccept n, false)])) es').2 = true
    · rw [if_pos hb']
      exact hgrow
    · rw [if_neg hb']
      exact hgrow

/-- Witness for the amended C4 at a concrete active environment. -/
theorem cache_reflects_successful_apply_witness :
    ((update_filters cfgW envActiveW allSucceed stW ExecSt.empty).outcome = .ok →
      (update_filters cfgW envActiveW allSucceed stW ExecSt.empty).st.blacklistCache
          = some (toBlacklist envActiveW).toFinset
      ∧ (update_filters cfgW envActiveW allSucceed stW ExecSt.empty).st.enabled = true)
    ∧ ((update_filters cfgW envActiveW allSucceed stW ExecSt.empty).outcome
          = .iptablesError →
      (update_filters cfgW envActiveW allSucceed stW ExecSt.empty).st.blacklistCache = none
      ∧ ∀ (env' : Env) (oracle' : Nat → Bool) (es' : ExecSt),
          _should_enable_dhcp cfgW env' = true →
          es'.trace.length
            < (update_filters cfgW env' oracle'
                (update_filters cfgW envActiveW allSucceed stW ExecSt.empty).st
                es').es.trace.length) :=
  cache_reflects_successful_apply cfgW envActiveW allSucceed stW ExecSt.empty
    (str "br0") (str "ii") (str "ii_temp") rfl rfl rfl rfl rfl rfl

def isAppendCmd : Cmd → Bool
  | .appendDrop _ _ => true
  | .appendAccept _ => true
  | .appendReject _ => true
  | _ => false

/-- C3: when DHCP is to be enabled and the cache misses, the blacklist
is the set of inventory port MACs minus the active-session MACs, and the
commands appended into the new chain are exactly one DROP per
blacklisted MAC (each remapped through the EoIB mapping) followed by a
single trailing ACCEPT; the full command sequence is `rewriteTrace`. -/
theorem blacklist_rules_populated (cfg : Config) (env : Env) (st : FwState)
    (es : ExecSt) (i c n : Str)
    (hm : cfg.manage_firewall = true)
    (hi : st.interface_ = some i) (hc : st.chain = some c) (hn : st.newChain = some n)
    (hact : _should_enable_dhcp cfg env = true)
    (hmiss : cacheHit st.blacklistCache (toBlacklist env)
      (_ib_mac_to_rmac_mapping env cfg (toBlacklist env) env.ports) = false) :
    (toBlacklist env).toFinset
        = (env.ports.map (·.address)).toFinset \ env.active_macs.toFinset
    ∧ (update_filters cfg env allSucceed st es).es.trace
        = es.trace ++ rewriteTrace i c n (toBlacklist env)
            (_ib_mac_to_rmac_mapping env cfg (toBlacklist env) env.ports)
    ∧ (rewriteTrace i c n (toBlacklist env)
          (_ib_mac_to_rmac_mapping env cfg (toBlacklist env) env.ports)).filter isAppendCmd
        = (toBlacklist env).map (fun m => Cmd.appendDrop n
            (remapMac (_ib_mac_to_rmac_mapping env cfg (toBlacklist env) env.ports) m))
          ++ [Cmd.appendAccept n]
    ∧ (update_filters cfg env allSucceed st es).outcome = .ok := by
  refine ⟨?_, ?_, ?_, ?_⟩
  · ext m
    simp [toBlacklist, macsActive, List.mem_filter, List.mem_dedup, Finset.mem_sdiff]
  · rw [update_filters_rewrite_allSucceed cfg env st es i c n hm hi hc hn hact hmiss]
  · simp only [rewriteTrace, List.filter_append, List.filter_map]
    have h : ∀ a ∈ toBlacklist env,
        (isAppendCmd ∘ fun m => Cmd.appendDrop n
          (remapMac (_ib_mac_to_rmac_mapping env cfg (toBlacklist env) env.ports) m)) a
          = true := by
      intro a ha
      simp [isAppendCmd]
    rw [List.filter_eq_self.mpr h]
    simp [isAppendCmd]
  · rw [update_filters_rewrite_allSucceed cfg env st es i c n hm hi hc hn hact hmiss]

/-- Witness for C3 at a concrete active environment. -/
theorem blacklist_rules_populated_witness :
    (toBlacklist envActiveW).toFinset
        = (envActiveW.ports.map (·.address)).toFinset \ envActiveW.active_macs.toFinset
    ∧ (update_filters cfgW envActiveW allSucceed stW ExecSt.empty).es.trace
        = ExecSt.empty.trace ++ rewriteTrace (str "br0") (str "ii") (str "ii_temp")
            (toBlacklist envActiveW)
            (_ib_mac_to_rmac_mapping envActiveW cfgW (toBlacklist envActiveW)
              envActiveW.ports)
    ∧ (rewriteTrace (str "br0") (str "ii") (str "ii_temp") (toBlacklist envActiveW)
          (_ib_mac_to_rmac_mapping envActiveW cfgW (toBlacklist envActiveW)
            envActiveW.ports)).filter isAppendCmd
        = (toBlacklist envActiveW).map (fun m => Cmd.appendDrop (str "ii_temp")
            (remapMac (_ib_mac_to_rmac_mapping envActiveW cfgW (toBlacklist envActiveW)
              envActiveW.ports) m))
          ++ [Cmd.appendAccept (str "ii_temp")]
    ∧ (update_filters cfgW envActiveW allSucceed stW ExecSt.empty).outcome = .ok :=
  blacklist_rules_populated cfgW envActiveW stW ExecSt.empty
    (str "br0") (str "ii") (str "ii_temp") rfl rfl rfl rfl rfl rfl

/-- C5: a blacklisted port address that the EoIB neighbour-table scan
maps to an Ethernet MAC (`_ib_mac_to_rmac_mapping` resolved its
client-id GUID against a neighbour line) has that Ethernet MAC written
into the DROP rule — the raw InfiniBand address itself is dropped from
the rule set (provided no other blacklisted MAC remaps onto it). -/
theorem eoib_remap_used_in_drop (cfg : Config) (env : Env) (st : FwState)
    (es : ExecSt) (i c n mac emac : Str)
    (hm : cfg.manage_firewall = true)
    (hi : st.interface_ = some i) (hc : st.chain = some c) (hn : st.newChain = some n)
    (hact : _should_enable_dhcp cfg env = true)
    (hmiss : cacheHit st.blacklistCache (toBlacklist env)
      (_ib_mac_to_rmac_mapping env cfg (toBlacklist env) env.ports) = false)
    (hmac : mac ∈ toBlacklist env)
    (hmap : alookup (_ib_mac_to_rmac_mapping env cfg (toBlacklist env) env.ports) mac
        = some emac)
    (hne : emac ≠ mac)
    (hnoal : ∀ m ∈ toBlacklist env, m ≠ mac →
        remapMac (_ib_mac_to_rmac_mapping env cfg (toBlacklist env) env.ports) m ≠ mac) :
    Cmd.appendDrop n emac
        ∈ ((update_filters cfg env allSucceed st es).es.trace.drop es.trace.length)
    ∧ Cmd.appendDrop n mac
        ∉ ((update_filters cfg env allSucceed st es).es.trace.drop es.trace.length) := by
  rw [update_filters_rewrite_allSucceed cfg env st es i c n hm hi hc hn hact hmiss]
  dsimp only
  rw [List.drop_left]
  constructor
  · simp only [rewriteTrace, List.mem_append, List.mem_cons, List.mem_map,
      List.not_mem_nil, or_false]
    exact Or.inl (Or.inr ⟨mac, hmac, by simp [remapMac, hmap]⟩)
  · intro hmem
    simp only [rewriteTrace, List.mem_append, List.mem_cons, List.mem_map,
      List.not_mem_nil, or_false] at hmem
    rcases hmem with (hlit | ⟨m, hmmem, heq⟩) | hlit
    · simp at hlit
    · have hr : remapMac (_ib_mac_to_rmac_mapping env cfg (toBlacklist env) env.ports) m
          = mac := by
        simpa using heq
      by_cases hmeq : m = mac
      · subst hmeq
        rw [remapMac, hmap] at hr
        exact hne hr
      · exact hnoal m hmmem hmeq hr
    · simp at hlit

/-- Witness for C5: the port with address `macW` carries a client-id
whose GUID matches the neighbour line of `dataEmacW`, so the DROP rule
uses the`EMAC` value and not the InfiniBand address. -/
theorem eoib_remap_used_in_drop_witness :
    Cmd.appendDrop (str "ii_temp") (str "00:11:22:33:44:55")
        ∈ ((update_filters cfgW envEmacW allSucceed stW ExecSt.empty).es.trace.drop
            ExecSt.empty.trace.length)
    ∧ Cmd.appendDrop (str "ii_temp") macW
        ∉ ((update_filters cfgW envEmacW allSucceed stW ExecSt.empty).es.trace.drop
            ExecSt.empty.trace.length) :=
  eoib_remap_used_in_drop cfgW envEmacW stW ExecSt.empty
    (str "br0") (str "ii") (str "ii_temp") macW (str "00:11:22:33:44:55")
    rfl rfl rfl rfl rfl rfl (by decide) (by decide) (by decide) (by decide)

/-- C2: the chain swap of `update_filters` (and of `_disable_dhcp`)
issues its commands in the order: reset/create the temporary chain,
populate it, insert the DHCP input hook to the temporary chain, delete
the hook to the primary chain, flush and delete the primary chain,
rename the temporary chain to the primary name (`rewriteTrace` /
`disableTrace`); and starting from a steady state whose hook points to
the fully populated primary chain, every intermediate observable state
keeps the hook on exactly one existing, fully populated chain — never
none, never a half-populated one (`hookInv`). -/
theorem chain_swap_atomic_invariant (cfg : Config) (env envIdle : Env) (st : FwState)
    (es es' : ExecSt) (i c n : Str) (old : List Rule)
    (hm : cfg.manage_firewall = true)
    (hi : st.interface_ = some i) (hc : st.chain = some c) (hn : st.newChain = some n)
    (hact : _should_enable_dhcp cfg env = true)
    (hmiss : cacheHit st.blacklistCache (toBlacklist env)
      (_ib_mac_to_rmac_mapping env cfg (toBlacklist env) env.ports) = false)
    (hen : st.enabled = true)
    (hidle : _should_enable_dhcp cfg envIdle = false)
    (hne : n ≠ c) :
    (update_filters cfg env allSucceed st es).es.trace.drop es.trace.length
        = rewriteTrace i c n (toBlacklist env)
            (_ib_mac_to_rmac_mapping env cfg (toBlacklist env) env.ports)
    ∧ (update_filters cfg envIdle allSucceed st es').es.trace.drop es'.trace.length
        = disableTrace i c n
    ∧ (∀ ns ∈ statesFrom ⟨[(c, old)], [c]⟩
          (rewriteTrace i c n (toBlacklist env)
            (_ib_mac_to_rmac_mapping env cfg (toBlacklist env) env.ports)),
        hookInv old
          ((toBlacklist env).map (fun m => Rule.drop
            (remapMac (_ib_mac_to_rmac_mapping env cfg (toBlacklist env) env.ports) m))
            ++ [Rule.accept]) ns)
    ∧ (∀ ns ∈ statesFrom ⟨[(c, old)], [c]⟩ (disableTrace i c n),
        hookInv old [Rule.reject] ns) := by
  have h1 := update_filters_rewrite_allSucceed cfg env st es i c n hm hi hc hn hact hmiss
  have h2 := update_filters_disable_allSucceed cfg envIdle st es' i c n hm hi hc hn hidle hen
  have hshape : rewriteTrace i c n (toBlacklist env)
        (_ib_mac_to_rmac_mapping env cfg (toBlacklist env) env.ports)
      = [Cmd.deleteInput i n, Cmd.flush n, Cmd.delChain n, Cmd.newChain n]
        ++ ((toBlacklist env).map (fun m => Rule.drop
            (remapMac (_ib_mac_to_rmac_mapping env cfg (toBlacklist env) env.ports) m))
            ++ [Rule.accept]).map (ruleCmd n)
        ++ [Cmd.insertInput i n, Cmd.deleteInput i c, Cmd.flush c, Cmd.delChain c,
            Cmd.rename n c] := by
    simp [rewriteTrace, ruleCmd, List.map_append, List.map_map, Function.comp]
  have hshape2 : disableTrace i c n
      = [Cmd.deleteInput i n, Cmd.flush n, Cmd.delChain n, Cmd.newChain n]
        ++ ([Rule.reject]).map (ruleCmd n)
        ++ [Cmd.insertInput i n, Cmd.deleteInput i c, Cmd.flush c, Cmd.delChain c,
            Cmd.rename n c] := by
    simp [disableTrace, ruleCmd]
  refine ⟨?_, ?_, ?_, ?_⟩
  · rw [h1]
    dsimp only
    rw [List.drop_left]
  · rw [h2]
    dsimp only
    rw [List.drop_left]
  · rw [hshape]
    exact swap_all_states_inv i c n old _ hne
  · rw [hshape2]
    exact swap_all_states_inv i c n old _ hne

/-- Witness for C2 at a concrete configuration, with the steady-state
primary chain holding a single ACCEPT rule. -/
theorem chain_swap_atomic_invariant_witness :
    (update_filters cfgW envActiveW allSucceed stW ExecSt.empty).es.trace.drop
        ExecSt.empty.trace.length
      = rewriteTrace (str "br0") (str "ii") (str "ii_temp") (toBlacklist envActiveW)
          (_ib_mac_to_rmac_mapping envActiveW cfgW (toBlacklist envActiveW)
            envActiveW.ports)
    ∧ (update_filters cfgW envIdleW allSucceed stW ExecSt.empty).es.trace.drop
          ExecSt.empty.trace.length
        = disableTrace (str "br0") (str "ii") (str "ii_temp")
    ∧ (∀ ns ∈ statesFrom ⟨[(str "ii", [Rule.accept])], [str "ii"]⟩
          (rewriteTrace (str "br0") (str "ii") (str "ii_temp") (toBlacklist envActiveW)
            (_ib_mac_to_rmac_mapping envActiveW cfgW (toBlacklist envActiveW)
              envActiveW.ports)),
        hookInv [Rule.accept]
          ((toBlacklist envActiveW).map (fun m => Rule.drop
            (remapMac (_ib_mac_to_rmac_mapping envActiveW cfgW (toBlacklist envActiveW)
              envActiveW.ports) m))
            ++ [Rule.accept]) ns)
    ∧ (∀ ns ∈ statesFrom ⟨[(str "ii", [Rule.accept])], [str "ii"]⟩
          (disableTrace (str "br0") (str "ii") (str "ii_temp")),
        hookInv [Rule.accept] [Rule.reject] ns) :=
  chain_swap_atomic_invariant cfgW envActiveW envIdleW stW ExecSt.empty ExecSt.empty
    (str "br0") (str "ii") (str "ii_temp") [Rule.accept]
    rfl rfl rfl rfl rfl rfl rfl rfl (by decide)

theorem update_filters_st_names (cfg : Config) (env : Env) (oracle : Nat → Bool)
    (st : FwState) (es : ExecSt) :
    (update_filters cfg env oracle st es).st.interface_ = st.interface_
    ∧ (update_filters cfg env oracle st es).st.chain = st.chain
    ∧ (update_filters cfg env oracle st es).st.newChain = st.newChain := by
  unfold update_filters
  split
  · exact ⟨rfl, rfl, rfl⟩
  · split
    · split
      · unfold _disable_dhcp
        split
        · exact ⟨rfl, rfl, rfl⟩
        · try dsimp only
          split <;> exact ⟨rfl, rfl, rfl⟩
      · try dsimp only
        split
        · exact ⟨rfl, rfl, rfl⟩
        · try dsimp only
          split <;> exact ⟨rfl, rfl, rfl⟩
    · exact ⟨rfl, rfl, rfl⟩

theorem update_filters_ok_cache (cfg : Config) (env : Env) (oracle : Nat → Bool)
    (st : FwState) (es : ExecSt) (i c n : Str)
    (hm : cfg.manage_firewall = true)
    (hi : st.interface_ = some i) (hc : st.chain = some c) (hn : st.newChain = some n)
    (hact : _should_enable_dhcp cfg env = true)
    (hok : (update_filters cfg env oracle st es).outcome = .ok) :
    ∃ X, (update_filters cfg env oracle st es).st.blacklistCache = some X
      ∧ (toBlacklist env).toFinset = X := by
  by_cases hhit : cacheHit st.blacklistCache (toBlacklist env)
      (_ib_mac_to_rmac_mapping env cfg (toBlacklist env) env.ports) = true
  · rw [update_filters_skip cfg env oracle st es i c n hm hi hc hn hact hhit]
    cases hbc : st.blacklistCache with
    | none => rw [hbc] at hhit; simp [cacheHit] at hhit
    | some c0 =>
      rw [hbc] at hhit
      simp only [cacheHit, Bool.and_eq_true, decide_eq_true_eq] at hhit
      exact ⟨c0, rfl, hhit.1⟩
  · rw [update_filters_rewrite_general cfg env oracle st es i c n hm hi hc hn hact
      (by simpa using hhit)] at hok ⊢
    dsimp only at hok ⊢
    by_cases hb : (runCmds oracle
        (_temporary_chain i n c
          ((toBlacklist env).map (fun m => (Cmd.appendDrop n
              (remapMac (_ib_mac_to_rmac_mapping env cfg (toBlacklist env) env.ports) m),
            false))
            ++ [(Cmd.appendAccept n, false)])) es).2 = true
    · rw [if_pos hb]
      exact ⟨(toBlacklist env).toFinset, rfl, rfl⟩
    · rw [if_neg hb] at hok
      exact absurd hok (by simp)

/-- Counterexample to C1 as stated: the first call (no readable
neighbour file) caches the blacklist; on the second call the neighbour
file of `envSelfW` maps the blacklisted address to itself, so the
blacklist *with remaps applied* is exactly the cached blacklist — yet
the remap mapping is non-empty, the skip test fails and the second call
issues 11 filter commands instead of zero. -/
theorem remapped_blacklist_skip_cex :
    ((toBlacklist envSelfW).map (remapMac
        (_ib_mac_to_rmac_mapping envSelfW cfgW (toBlacklist envSelfW)
          envSelfW.ports))).toFinset
        = (toBlacklist envSelfW).toFinset
    ∧ (update_filters cfgW envActiveW allSucceed stW ExecSt.empty).st.blacklistCache
        = some ((toBlacklist envSelfW).map (remapMac
            (_ib_mac_to_rmac_mapping envSelfW cfgW (toBlacklist envSelfW)
              envSelfW.ports))).toFinset
    ∧ _ib_mac_to_rmac_mapping envSelfW cfgW (toBlacklist envSelfW) envSelfW.ports ≠ []
    ∧ (update_filters cfgW envSelfW allSucceed
          (update_filters cfgW envActiveW allSucceed stW ExecSt.empty).st
          (update_filters cfgW envActiveW allSucceed stW ExecSt.empty).es).es.trace.length
        = (update_filters cfgW envActiveW allSucceed stW ExecSt.empty).es.trace.length
          + 11 := by
  refine ⟨by decide, by decide, by decide, rfl⟩

/-- C1 (amended): for two consecutive `update_filters` calls in which
the second call's *raw* blacklist (before remapping) is set-equal to the
blacklist cached by a successful first call and the second call's EoIB
remap mapping is empty, the second call skips rewriting entirely: it
issues zero filter commands and leaves state and trace unchanged. -/
theorem consecutive_unchanged_blacklist_noop (cfg : Config) (env1 env2 : Env)
    (oracle1 oracle2 : Nat → Bool) (st : FwState) (es : ExecSt) (i c n : Str)
    (hm : cfg.manage_firewall = true)
    (hi : st.interface_ = some i) (hc : st.chain = some c) (hn : st.newChain = some n)
    (hact1 : _should_enable_dhcp cfg env1 = true)
    (hact2 : _should_enable_dhcp cfg env2 = true)
    (hok : (update_filters cfg env1 oracle1 st es).outcome = .ok)
    (heq : (toBlacklist env2).toFinset = (toBlacklist env1).toFinset)
    (hmap2 : _ib_mac_to_rmac_mapping env2 cfg (toBlacklist env2) env2.ports = []) :
    update_filters cfg env2 oracle2 (update_filters cfg env1 oracle1 st es).st
        (update_filters cfg env1 oracle1 st es).es
      = ⟨(update_filters cfg env1 oracle1 st es).st,
         (update_filters cfg env1 oracle1 st es).es, .ok⟩ := by
  obtain ⟨X, hX, hXeq⟩ :=
    update_filters_ok_cache cfg env1 oracle1 st es i c n hm hi hc hn hact1 hok
  obtain ⟨hni, hnc, hnn⟩ := update_filters_st_names cfg env1 oracle1 st es
  refine update_filters_skip cfg env2 oracle2 _ _ i c n hm ?_ ?_ ?_ hact2 ?_
  · rw [hni, hi]
  · rw [hnc, hc]
  · rw [hnn, hn]
  · rw [hX, hmap2]
    simp [cacheHit, heq, hXeq]

/-- Witness for the amended C1: two consecutive calls over the same
active environment; the second is a complete no-op. -/
theorem consecutive_unchanged_blacklist_noop_witness :
    update_filters cfgW envActiveW allSucceed
        (update_filters cfgW envActiveW allSucceed stW ExecSt.empty).st
        (update_filters cfgW envActiveW allSucceed stW ExecSt.empty).es
      = ⟨(update_filters cfgW envActiveW allSucceed stW ExecSt.empty).st,
         (update_filters cfgW envActiveW allSucceed stW ExecSt.empty).es, .ok⟩ :=
  consecutive_unchanged_blacklist_noop cfgW envActiveW envActiveW allSucceed allSucceed
    stW ExecSt.empty (str "br0") (str "ii") (str "ii_temp")
    rfl rfl rfl rfl rfl rfl (by decide) rfl rfl

/-- C7: if, during the power-off phase, the elapsed time exceeds the
configured timeout before the node reports powered-off (after K in-time
non-off polls), the session run raises the timeout error — whose text
contains "power off" — finalises the session with exactly
"Timeout waiting for node <uuid> to power off after introspection", and
the only inventory node update committed is the baseline one. -/
theorem power_off_timeout_finalizes (inp : SessIn) (n1 n3 K fuel : Nat)
    (hcreds : inp.hasCreds = false)
    (hu : retryOnConflict inp.updateResp 0 inp.attempts = (n1, .success))
    (hp : retryOnConflict inp.powerResp 0 inp.attempts = (n3, .success))
    (hK : ∀ j < K, inp.clock j ≤ inp.startedAt + inp.timeout ∧ inp.isOff j = false)
    (hKt : inp.clock K > inp.startedAt + inp.timeout)
    (hfuel : K < fuel) :
    runSession inp fuel
      = some ⟨n1, [.baseline], some (timeoutMsg inp.uuid),
              some (some (timeoutMsg inp.uuid)), K⟩
    ∧ str "power off" <:+: timeoutMsg inp.uuid := by
  have hw : waitPowerOff inp 0 fuel = some (K, false) := by
    have := waitPowerOff_timeout inp K 0 fuel hfuel
      (fun j hj => by simpa using hK j hj) (by simpa using hKt)
    simpa using this
  constructor
  · simp only [runSession, hu, hcreds, hp, hw]
    simp
  · refine ⟨str "Timeout waiting for node " ++ inp.uuid ++ str " to ",
      str " after introspection", ?_⟩
    have hsplit : str " to " ++ (str "power off" ++ str " after introspection")
        = str " to power off after introspection" := by decide
    simp [timeoutMsg, List.append_assoc, hsplit]

/-- Concrete session input for the C7 witness: the clock is already
past the deadline at the first poll check. -/
def sessTW : SessIn :=
  ⟨str "u1", 0, 10, 3, false, 1, fun _ => true, fun _ => .ok, fun _ => .ok,
   fun _ => false, fun _ => 100⟩

/-- Witness for C7: timeout on the very first deadline check. -/
theorem power_off_timeout_finalizes_witness :
    runSession sessTW 1
      = some ⟨1, [.baseline], some (timeoutMsg sessTW.uuid),
              some (some (timeoutMsg sessTW.uuid)), 0⟩
    ∧ str "power off" <:+: timeoutMsg sessTW.uuid :=
  power_off_timeout_finalizes sessTW 1 1 0 1 rfl (by decide) (by decide)
    (fun j hj => absurd hj (Nat.not_lt_zero j)) (by decide) (by decide)

/-- C8: a node update hitting N−1 conflicts and succeeding on the N-th
attempt (within the bound) makes exactly N calls and the session run
proceeds normally to a successful finish (the final update then adds
one more call); a non-conflict failure stops the retry loop immediately
after the failing call. -/
theorem update_conflict_retry_bounded (inp : SessIn) (N fuel : Nat)
    (hN : 0 < N) (hNA : N ≤ inp.attempts)
    (hconf : ∀ k < N - 1, inp.updateResp k = .conflict)
    (hok : inp.updateResp (N - 1) = .ok)
    (hcreds : inp.hasCreds = false)
    (hpw : inp.powerResp 0 = .ok)
    (hoff : inp.isOff 0 = true)
    (hcl : inp.clock 0 ≤ inp.startedAt + inp.timeout)
    (hfin : inp.updateResp N = .ok)
    (hfuel : 0 < fuel) :
    retryOnConflict inp.updateResp 0 inp.attempts = (N, .success)
    ∧ runSession inp fuel = some ⟨N + 1, [.baseline, .finalPatch], none, some none, 1⟩
    ∧ (∀ (resp : Nat → Resp) (M A : Nat), M < A → (∀ k < M, resp k = .conflict) →
        resp M = .err → retryOnConflict resp 0 A = (M + 1, .failed)) := by
  have h1 : retryOnConflict inp.updateResp 0 inp.attempts = (N, .success) := by
    obtain ⟨m, rfl⟩ : ∃ m, N = m + 1 := ⟨N - 1, by omega⟩
    have := retry_conflicts_then_ok inp.updateResp m 0 inp.attempts (by omega)
      (fun k hk => by simpa using hconf k (by simpa using hk))
      (by simpa using hok)
    simpa using this
  have h3 : retryOnConflict inp.powerResp 0 inp.attempts = (1, .success) := by
    obtain ⟨a, ha⟩ : ∃ a, inp.attempts = a + 1 := ⟨inp.attempts - 1, by omega⟩
    rw [ha]
    simp [retryOnConflict, hpw]
  have hw : waitPowerOff inp 0 fuel = some (1, true) := by
    obtain ⟨f, rfl⟩ : ∃ f, fuel = f + 1 := ⟨fuel - 1, by omega⟩
    have hnd : ¬ inp.clock 0 > inp.startedAt + inp.timeout := by omega
    simp [waitPowerOff, hnd, hoff]
  have h4 : retryOnConflict inp.updateResp N inp.attempts = (1, .success) := by
    obtain ⟨a, ha⟩ : ∃ a, inp.attempts = a + 1 := ⟨inp.attempts - 1, by omega⟩
    rw [ha]
    simp [retryOnConflict, hfin]
  refine ⟨h1, ?_, ?_⟩
  · simp only [runSession, h1, hcreds, h3, hw, h4]
    simp
  · intro resp M A hMA hc he
    exact retry_err_propagates resp M 0 A hMA
      (fun k hk => by simpa using hc k hk) (by simpa using he)

/-- The scripted update responses of the C8 witness: one conflict, then
successes. -/
def updRespW : Nat → Resp := fun k => if k = 0 then .conflict else .ok

/-- Concrete session input for the C8 witness. -/
def sessRW : SessIn :=
  ⟨str "u1", 0, 10, 3, false, 1, fun _ => true, updRespW, fun _ => .ok,
   fun _ => true, fun _ => 0⟩

/-- Witness for C8 with N = 2: one conflict, success on the second
attempt, session finishing normally with three update calls in total. -/
theorem update_conflict_retry_bounded_witness :
    retryOnConflict sessRW.updateResp 0 sessRW.attempts = (2, .success)
    ∧ runSession sessRW 1 = some ⟨3, [.baseline, .finalPatch], none, some none, 1⟩
    ∧ (∀ (resp : Nat → Resp) (M A : Nat), M < A → (∀ k < M, resp k = .conflict) →
        resp M = .err → retryOnConflict resp 0 A = (M + 1, .failed)) :=
  update_conflict_retry_bounded sessRW 2 1 (by decide) (by decide)
    (by intro k hk; interval_cases k <;> rfl) rfl rfl rfl rfl (by decide) rfl
    (by decide)
